import Mathlib

/-!
Verification of the `trk` static site generator (`src/main.rs`).

The development shallowly embeds the program's data model and operations:

* Timestamps (`chrono::DateTime<Utc>`) are modelled as `Int` seconds since
  the Unix epoch; the proleptic-Gregorian calendar conversion used by
  `Datelike::year/month/day` is implemented from first principles
  (`civilFromDays` / `daysFromCivil`), organised around 400-year eras.
* `format_date`, `parse_markdown_file`, `generate_rss`, `generate_site`,
  `serve_static_files` and the `Dev`-mode watch loop of `main` are
  translated from the source; external collaborators (serde_yaml,
  pulldown_cmark, tera, the rss serializer) are passed in as function
  parameters, following the source's use of them as pure library calls.
* Rust's `str::split` on the fixed delimiter `"---\n"` is implemented at
  the character level (`splitD`); the delimiter is ASCII, so character
  positions and byte positions agree on well-formed UTF-8 input.
-/

/-! ## Calendar: civil (proleptic Gregorian) dates and epoch seconds -/

/-- First day (day-of-era offset) of March-based year-of-era `y` (0 ≤ y ≤ 399)
inside a 400-year Gregorian era: 365 days per year plus the accumulated leap
days (`y/4 - y/100`; the `y/400` term vanishes for `y < 400`). -/
def eraStart (y : Nat) : Nat := 365 * y + y / 4 - y / 100

/-- Largest `y ≤ bound` with `eraStart y ≤ doe`: the March-based year-of-era
containing day-of-era `doe`. -/
def findYoe (doe : Nat) : Nat → Nat
  | 0 => 0
  | y + 1 => if eraStart (y + 1) ≤ doe then y + 1 else findYoe doe y

/-- Year-of-era of day-of-era `doe` (`doe < 146097`). -/
def cfdYoe (doe : Nat) : Nat := findYoe doe 399

/-- Day-of-year (March-based, in `0..365`) of day-of-era `doe`. -/
def cfdDoy (doe : Nat) : Nat := doe - eraStart (cfdYoe doe)

/-- March-based month index (`0` = March, …, `11` = February). The divisor
arithmetic `(5 * doy + 2) / 153` inverts the month-length pattern
`31 30 31 30 31 31 30 31 30 31 31 28/29` starting from March. -/
def cfdMp (doe : Nat) : Nat := (5 * cfdDoy doe + 2) / 153

/-- Day of month (`1..31`) of day-of-era `doe`. -/
def cfdDay (doe : Nat) : Nat := cfdDoy doe - (153 * cfdMp doe + 2) / 5 + 1

/-- Calendar month (`1..12`) of day-of-era `doe`. -/
def cfdMonth (doe : Nat) : Nat := if cfdMp doe < 10 then cfdMp doe + 3 else cfdMp doe - 9

/-- Days relative to 1970-01-01, shifted so that day `0` is 0000-03-01 and the
era count starts there: `z + 719468` is the count of days since 0000-03-01. -/
def cfdShift (z : Int) : Int := z + 719468

/-- 400-year era containing the day `z` (days since the epoch). Division is
`Int.ediv`, which is floor division for the positive divisor `146097`. -/
def cfdEra (z : Int) : Int := Int.ediv (cfdShift z) 146097

/-- Day-of-era (`0..146096`) of the day `z`. -/
def cfdDoe (z : Int) : Nat := (Int.emod (cfdShift z) 146097).toNat

/-- Proleptic-Gregorian `(year, month, day)` of the day `z` (days since
1970-01-01).  Models `chrono::Datelike::{year, month, day}`. -/
def civilFromDays (z : Int) : Int × Nat × Nat :=
  let doe := cfdDoe z
  let m := cfdMonth doe
  ((cfdYoe doe : Int) + cfdEra z * 400 + (if m ≤ 2 then 1 else 0), m, cfdDay doe)

/-- Inverse direction: days since 1970-01-01 of the Gregorian date `y-m-d`.
Models the calendar arithmetic `chrono` performs when building a date. -/
def daysFromCivil (y : Int) (m d : Nat) : Int :=
  let yAdj : Int := y - (if m ≤ 2 then 1 else 0)
  let era : Int := Int.ediv yAdj 400
  let yoe : Nat := (yAdj - era * 400).toNat
  let mp : Nat := if 3 ≤ m then m - 3 else m + 9
  let doy : Nat := (153 * mp + 2) / 5 + d - 1
  era * 146097 + ((eraStart yoe + doy : Nat) : Int) - 719468

/-- Modelled boundary: `serde_yaml` + `chrono` deserializing an RFC 3339 /
ISO-8601 string `y-m-dTh:mi:s` with a UTC offset of `offMin` minutes into a
`DateTime<Utc>`, i.e. the UTC instant (in seconds since the epoch) of the
stated local time. `chrono` stores the instant obtained by subtracting the
offset from the stated wall-clock time. -/
def rfc3339ToInstant (y : Int) (m d h mi s : Nat) (offMin : Int) : Int :=
  daysFromCivil y m d * 86400 + (h * 3600 + mi * 60 + s : Nat) - offMin * 60

/-- UTC calendar year of an instant, as `chrono`'s `date.year()`. -/
def yearOf (t : Int) : Int := (civilFromDays (Int.ediv t 86400)).1

/-- UTC calendar month of an instant, as `chrono`'s `date.month()`. -/
def monthOf (t : Int) : Nat := (civilFromDays (Int.ediv t 86400)).2.1

/-- UTC calendar day-of-month of an instant, as `chrono`'s `date.day()`. -/
def dayOf (t : Int) : Nat := (civilFromDays (Int.ediv t 86400)).2.2

/-- Seconds past midnight (UTC) of an instant. -/
def secondsOfDay (t : Int) : Nat := (Int.emod t 86400).toNat

/-! ## Decimal rendering, as Rust's `format!("{:0w}", n)` -/

/-- The ASCII digit character for `d < 10`. -/
def digitChar (d : Nat) : Char := Char.ofNat (48 + d)

/-- Decimal digits of `n`, least significant first; `fuel ≥ n` suffices. -/
def decDigitsRev (fuel n : Nat) : List Char :=
  match fuel with
  | 0 => []
  | f + 1 => if n = 0 then [] else digitChar (n % 10) :: decDigitsRev f (n / 10)

/-- Decimal rendering of a natural number, as Rust renders `u32`/`i32`
magnitudes: most significant digit first, `"0"` for zero. -/
def natToDecList (n : Nat) : List Char :=
  if n = 0 then ['0'] else (decDigitsRev n n).reverse

/-- Rust `format!("{:0w}", n)` for a nonnegative value: the decimal digits,
left-padded with `'0'` to at least width `w`. -/
def fmtPad (w n : Nat) : List Char :=
  List.replicate (w - (natToDecList n).length) '0' ++ natToDecList n

/-- Rust `format!("{:0w}", i)` for a signed value: sign-aware zero padding
(the `'-'` counts toward the width). -/
def fmtPadInt (w : Nat) (i : Int) : List Char :=
  if i < 0 then '-' :: fmtPad (w - 1) i.natAbs else fmtPad w i.toNat

/-- Value of a big-endian digit string (used to state that a rendered field
denotes the number it was rendered from). -/
def decodeNat (l : List Char) : Nat :=
  l.foldl (fun acc c => acc * 10 + (c.toNat - 48)) 0

/-- Decidable check for the shape `\d{4}-\d{2}-\d{2}`. -/
def datePattern (s : String) : Bool :=
  match s.data with
  | [y1, y2, y3, y4, s1, m1, m2, s2, d1, d2] =>
    y1.isDigit && y2.isDigit && y3.isDigit && y4.isDigit && s1 == '-' &&
    m1.isDigit && m2.isDigit && s2 == '-' && d1.isDigit && d2.isDigit
  | _ => false

/-- `format_date` from `src/main.rs` (lines 64-66):
`format!("{:04}-{:02}-{:02}", date.year(), date.month(), date.day())` on the
UTC calendar date of the instant. -/
def format_date (t : Int) : String :=
  ⟨fmtPadInt 4 (yearOf t)⟩ ++ "-" ++ ⟨fmtPad 2 (monthOf t)⟩ ++ "-" ++ ⟨fmtPad 2 (dayOf t)⟩

/-- Three-letter English weekday name; day `0` is Sunday. -/
def weekdayName (w : Nat) : String :=
  [ "Sun", "Mon", "Tue", "Wed", "Thu", "Fri", "Sat" ].getD w "Sun"

/-- Three-letter English month name for month `1..12`. -/
def monthName (m : Nat) : String :=
  [ "Jan", "Feb", "Mar", "Apr", "May", "Jun", "Jul", "Aug", "Sep", "Oct",
    "Nov", "Dec" ].getD (m - 1) "Jan"

/-- Modelled boundary: `chrono`'s `DateTime<Utc>::to_rfc2822`, e.g.
`"Sun, 31 Dec 2023 15:30:00 +0000"`. 1970-01-01 was a Thursday, so the
weekday index of day `z` (with `0` = Sunday) is `(z + 4) mod 7`. -/
def toRfc2822 (t : Int) : String :=
  let z := Int.ediv t 86400
  let sod := secondsOfDay t
  weekdayName ((Int.emod (z + 4) 7).toNat) ++ ", " ++
    ⟨fmtPad 2 (dayOf t)⟩ ++ " " ++ monthName (monthOf t) ++ " " ++
    ⟨fmtPadInt 4 (yearOf t)⟩ ++ " " ++ ⟨fmtPad 2 (sod / 3600)⟩ ++ ":" ++
    ⟨fmtPad 2 (sod / 60 % 60)⟩ ++ ":" ++ ⟨fmtPad 2 (sod % 60)⟩ ++ " +0000"

/-! ## Document parsing (`parse_markdown_file`, lines 68-101) -/

/-- `FrontMatter` (lines 48-54): `title`, `date: DateTime<Utc>` (modelled as
the UTC instant in seconds), `description` (defaulting to `""` is the
deserializer's concern). -/
structure FrontMatter where
  title : String
  date : Int
  description : String
deriving Repr, DecidableEq

/-- `Post` (lines 56-62). -/
structure Post where
  front_matter : FrontMatter
  content : String
  slug : String
  formatted_date : String
deriving Repr, DecidableEq

/-- Errors `parse_markdown_file` can surface (via `anyhow`): the explicit
`bail!` for a malformed three-part structure, and the propagated
`serde_yaml` error. (The `fs::read_to_string` error is outside this model:
the file text is the input.) -/
inductive ParseError where
  | formatError
  | metadataError (msg : String)
deriving Repr, DecidableEq

/-- True iff the character list begins with the delimiter `"---\n"`. -/
def isDelimAt : List Char → Bool
  | c1 :: r1 =>
    c1 == '-' &&
      (match r1 with
       | c2 :: r2 =>
         c2 == '-' &&
           (match r2 with
            | c3 :: r3 =>
              c3 == '-' &&
                (match r3 with
                 | c4 :: _ => c4 == '\n'
                 | [] => false)
            | [] => false)
       | [] => false)
  | [] => false

/-- Prepend a character to the first segment of a split result. -/
def consSeg (c : Char) : List (List Char) → List (List Char)
  | seg :: rest => (c :: seg) :: rest
  | [] => [[c]]

/-- Rust's `content.split("---\n")` (line 70): the segments between
consecutive leftmost non-overlapping occurrences of the delimiter, in order,
including empty segments (Rust `split` yields one segment more than the
number of matches). Always returns at least one segment. -/
def splitD : List Char → List (List Char)
  | '-' :: '-' :: '-' :: '\n' :: u => [] :: splitD u
  | c :: t => consSeg c (splitD t)
  | [] => [[]]

/-- Number of positions of `s` at which the delimiter `"---\n"` occurs
(every position counted, with no consumption). -/
def occD (s : List Char) : Nat :=
  match s with
  | [] => 0
  | _ :: t => (if isDelimAt s then 1 else 0) + occD t

/-- External collaborators of the parser and the generator, modelled as the
pure functions the source treats them as: `serde_yaml::from_str` for
`FrontMatter`, and `pulldown_cmark` markdown-to-HTML conversion (with
strikethrough and tables enabled; total, per its own rules). -/
structure ParseEnv where
  fromYaml : String → Except String FrontMatter
  mdToHtml : String → String

/-- `parse_markdown_file` (lines 68-101), with the file's text and base name
(`path.file_stem()`) as inputs: split on `"---\n"`, `bail!` on fewer than 3
segments, deserialize segment 1, convert segment 2, derive `slug` and
`formatted_date`. -/
def parse_markdown_file (env : ParseEnv) (stem : String) (content : String) :
    Except ParseError Post :=
  let parts := splitD content.data
  if parts.length < 3 then .error .formatError
  else
    match env.fromYaml (String.mk (parts.getD 1 [])) with
    | .error e => .error (.metadataError e)
    | .ok fm =>
      .ok { front_matter := fm
            content := env.mdToHtml (String.mk (parts.getD 2 []))
            slug := stem
            formatted_date := format_date fm.date }

/-! ## Feed generation (`generate_rss`, lines 103-126) -/

/-- An `rss::Item` as assembled by `ItemBuilder` (optional fields). -/
structure RssItem where
  title : Option String
  link : Option String
  description : Option String
  pub_date : Option String
deriving Repr, DecidableEq

/-- An `rss::Channel` as assembled by `ChannelBuilder` plus the pushed items. -/
structure RssChannel where
  title : String
  link : String
  description : String
  items : List RssItem
deriving Repr, DecidableEq

/-- The item built for one post in the loop at lines 110-119. -/
def rssItemOfPost (post : Post) : RssItem :=
  { title := some post.front_matter.title
    link := some ("https://trkw.github.io/" ++ post.slug ++ ".html")
    description := some post.front_matter.description
    pub_date := some (toRfc2822 post.front_matter.date) }

/-- `generate_rss` (lines 103-126), up to the final serialization
(`channel.to_string()`) and file write, which the site generator below
performs through its boundary functions. -/
def generate_rss (posts : List Post) : RssChannel :=
  { title := "Memo"
    link := "https://trkw.github.io"
    description := "My memo posts"
    items := posts.map rssItemOfPost }

/-! ## Collection ordering (line 147) -/

/-- The comparator of `posts.sort_by(|a, b| b.front_matter.date.cmp(&a.front_matter.date))`
as a total boolean preorder: `a` may precede `b` iff `b.date ≤ a.date`. -/
def postLe (a b : Post) : Bool := b.front_matter.date ≤ a.front_matter.date

/-- Stable insertion of one post into an already sorted list: `p` goes in
front of the first entry it may precede (`postLe`), i.e. after every entry
with a strictly later date and after no entry with an earlier-or-equal one. -/
def insertPost (p : Post) : List Post → List Post
  | [] => [p]
  | q :: rest => if postLe p q then p :: q :: rest else q :: insertPost p rest

/-- The sort at line 147,
`posts.sort_by(|a, b| b.front_matter.date.cmp(&a.front_matter.date))`.
Rust's `sort_by` is a stable sort; the stable insertion sort below has the
same extensional behaviour (a stable sort of a total preorder is unique, and
the sortedness, permutation and stability theorems proved about `sortPosts`
pin that behaviour down). -/
def sortPosts (posts : List Post) : List Post := posts.foldr insertPost []

/-! ## Site generation (`generate_site`, lines 128-172) -/

/-- The variables inserted into a `tera::Context` before each render call:
either the per-post variables (lines 151-154) or the index variables
(lines 162-163). -/
inductive TemplateVars where
  | post (title content date : String)
  | index (posts : List Post)

/-- The output tree under `output_dir`, keyed by file name. -/
def FS : Type := String → Option String

/-- `fs::write` of one artifact. -/
def fsWrite (fs : FS) (path contents : String) : FS :=
  fun p => if p = path then some contents else fs p

/-- One candidate file found by the `WalkDir` traversal (lines 138-144):
its extension, base name, and text. The traversal of an unchanged content
tree yields the same sequence. -/
structure ContentFile where
  ext : String
  stem : String
  text : String

/-- Inputs and external collaborators of one `generate_site` run: the
content files in traversal order, the template engine initialized from the
template root (`Tera::new`, which fails as a whole on a bad template), and
the feed serializer `channel.to_string()`. -/
structure SiteEnv where
  parse : ParseEnv
  contentFiles : List ContentFile
  tera : Except String (String → TemplateVars → Except String String)
  feedToString : RssChannel → String

/-- Errors of one `generate_site` run (`anyhow` propagation). -/
inductive SiteError where
  | teraInit (msg : String)
  | parse (err : ParseError)
  | render (msg : String)
deriving Repr, DecidableEq

/-- The body of the loop at lines 150-159: render one post page
(`post.html` with `title`, `content`, `date`) and write it to
`{slug}.html`, propagating a render failure. -/
def writePostPage (render : String → TemplateVars → Except String String)
    (fs : FS) (post : Post) : Except SiteError FS :=
  match render "post.html"
      (.post post.front_matter.title post.content post.formatted_date) with
  | .error e => .error (.render e)
  | .ok out => .ok (fsWrite fs (post.slug ++ ".html") out)

/-- `generate_site` (lines 128-172): initialize the template engine, collect
and parse every `.md` file, sort by date descending, render and write each
post page, the index page, and the feed. `create_dir_all` has no effect in
the flat output-tree model. -/
def generate_site (env : SiteEnv) (fs : FS) : Except SiteError FS :=
  match env.tera with
  | .error e => .error (.teraInit e)
  | .ok render =>
    match (env.contentFiles.filter (fun f => f.ext = "md")).mapM
        (fun f => parse_markdown_file env.parse f.stem f.text) with
    | .error e => .error (.parse e)
    | .ok posts =>
      let posts := sortPosts posts
      match posts.foldlM (writePostPage render) fs with
      | .error e => .error e
      | .ok fs =>
        match render "index.html" (.index posts) with
        | .error e => .error (.render e)
        | .ok out =>
          let fs := fsWrite fs "index.html" out
          .ok (fsWrite fs "feed.xml" (env.feedToString (generate_rss posts)))

/-! ## Dev mode: watch loop and static server (lines 174-227) -/

/-- One result of `rx.recv_timeout(Duration::from_millis(100))` as seen by
the loop at lines 208-222: a delivered filesystem event (tagged with whether
the `generate_site` call it triggers succeeds), a timeout (the channel was
quiet for the 100 ms window), or the channel having disconnected. -/
inductive RecvEvent where
  | ok (genSucceeds : Bool)
  | timeout
  | disconnected
deriving Repr, DecidableEq

/-- Observable state of the spawned watch-loop task: how many times
`generate_site` was invoked, how many regeneration failures were reported
(`eprintln!` at line 213), whether the watch-channel error was reported
(line 218), and whether the loop is still running (`break` at line 219 ends
it). -/
structure WatchState where
  regens : Nat
  regenFailuresReported : Nat
  watchErrorReported : Bool
  alive : Bool
deriving Repr, DecidableEq

/-- State before the first `recv_timeout`. -/
def watchInit : WatchState :=
  { regens := 0, regenFailuresReported := 0, watchErrorReported := false, alive := true }

/-- One iteration of the loop at lines 208-222. On `Ok(_)` the site is
regenerated immediately (a failure is reported and the loop continues); on
`Timeout` nothing happens; on disconnection the error is reported and the
loop breaks. After the break no further event is processed. -/
def watchStep (s : WatchState) (e : RecvEvent) : WatchState :=
  if s.alive then
    match e with
    | .ok genSucceeds =>
      { s with regens := s.regens + 1
               regenFailuresReported :=
                 s.regenFailuresReported + (if genSucceeds then 0 else 1) }
    | .timeout => s
    | .disconnected => { s with watchErrorReported := true, alive := false }
  else s

/-- The watch loop run over a finite trace of `recv_timeout` results. -/
def runWatch (events : List RecvEvent) : WatchState :=
  events.foldl watchStep watchInit

/-- Number of delivered events in a trace up to the first disconnection:
the number of `generate_site` invocations the loop performs. -/
def oksBefore (events : List RecvEvent) : Nat :=
  match events with
  | [] => 0
  | .ok _ :: t => oksBefore t + 1
  | .timeout :: t => oksBefore t
  | .disconnected :: _ => 0

/-! ## CLI and server (lines 20-46, 174-231) -/

/-- The `Commands` subcommands (lines 37-46); `Dev` carries the parsed
`--port` value (default 3000). -/
inductive Commands where
  | generate
  | dev (port : Nat)
deriving Repr, DecidableEq

/-- The `Cli` arguments (lines 20-35). -/
structure Cli where
  command : Commands
  content_dir : String
  template_dir : String
  output_dir : String

/-- The socket binding and route configuration `warp::serve(...).run(...)`
is given in `serve_static_files` (lines 174-181): the output directory
served at the hard-coded address `127.0.0.1:3000`, with request logging. -/
structure ServerConfig where
  addr : Nat × Nat × Nat × Nat
  port : Nat
  dir : String
  logsRequests : Bool
deriving Repr, DecidableEq

/-- `serve_static_files` (lines 174-181): the function receives only the
output directory and always binds `([127, 0, 0, 1], 3000)`. -/
def serve_static_files (output_dir : String) : ServerConfig :=
  { addr := (127, 0, 0, 1), port := 3000, dir := output_dir, logsRequests := true }

/-- The server started by `main` in `Dev` mode (lines 191-227): the `port`
field of the parsed subcommand is discarded by the pattern
`Commands::Dev { port: _ }`, and `serve_static_files(cli.output_dir)` is
awaited. In `Generate` mode no server is started. -/
def mainServer (cli : Cli) : Option ServerConfig :=
  match cli.command with
  | .generate => none
  | .dev _ => some (serve_static_files cli.output_dir)

/-- Observable state of a `Dev`-mode process after the spawned watch loop
has consumed a trace: the watch-loop state, and whether the static server
(and with it the process) is still running. `main` awaits
`serve_static_files` (line 226), whose `warp::serve(...).run(...).await`
never completes, independently of the spawned watcher task; the watcher
breaking its loop ends only that task. -/
structure DevState where
  watch : WatchState
  serverRunning : Bool
deriving Repr, DecidableEq

/-- `Dev`-mode execution (lines 191-227) over a finite watch trace. -/
def runDev (events : List RecvEvent) : DevState :=
  { watch := runWatch events, serverRunning := true }

/-! ## Concrete instances used by witnesses -/

/-- A concrete deserializer/converter pair for witnesses: the metadata block
becomes the title verbatim (date 0, empty description) and markdown
conversion is the identity. -/
def envParseW : ParseEnv :=
  { fromYaml := fun s => .ok { title := s, date := 0, description := "" }
    mdToHtml := fun s => s }

/-- A concrete one-file site environment for witnesses. -/
def siteEnvW : SiteEnv :=
  { parse := envParseW
    contentFiles := [{ ext := "md", stem := "hello", text := "---\nhi\n---\nbody" }]
    tera := .ok (fun name _ => .ok (name ++ "!"))
    feedToString := fun ch => ch.title }

/-- The empty output tree. -/
def fsEmpty : FS := fun _ => none

/-- The output tree after one `generate_site` run in the witness
environment. -/
def fsW1 : FS :=
  match generate_site siteEnvW fsEmpty with
  | .ok f => f
  | .error _ => fsEmpty

/-- The output tree after a second `generate_site` run in the witness
environment. -/
def fsW2 : FS :=
  match generate_site siteEnvW fsW1 with
  | .ok f => f
  | .error _ => fsEmpty

/-! ## Watch-loop lemmas -/

theorem watchStep_dead {s : WatchState} (h : s.alive = false) (e : RecvEvent) :
    watchStep s e = s := by
  simp [watchStep, h]

theorem foldl_watchStep_dead {s : WatchState} (h : s.alive = false) :
    ∀ es : List RecvEvent, es.foldl watchStep s = s := by
  intro es
  induction es with
  | nil => rfl
  | cons e t ih => simp [List.foldl, watchStep_dead h, ih]

theorem foldl_watchStep_regens :
    ∀ (es : List RecvEvent) (s : WatchState), s.alive = true →
      (es.foldl watchStep s).regens = s.regens + oksBefore es := by
  intro es
  induction es with
  | nil => intro s h; simp [oksBefore]
  | cons e t ih =>
    intro s h
    cases e with
    | ok g =>
      have hs : watchStep s (.ok g) =
          { s with regens := s.regens + 1,
                   regenFailuresReported :=
                     s.regenFailuresReported + (if g then 0 else 1) } := by
        simp [watchStep, h]
      simp only [List.foldl_cons, hs]
      rw [ih _ (by simp [h])]
      simp [oksBefore]
      omega
    | timeout =>
      have hs : watchStep s .timeout = s := by simp [watchStep, h]
      simp only [List.foldl_cons, hs, oksBefore]
      exact ih s h
    | disconnected =>
      have hs : watchStep s .disconnected =
          { s with watchErrorReported := true, alive := false } := by
        simp [watchStep, h]
      simp only [List.foldl_cons, hs]
      rw [foldl_watchStep_dead (by simp)]
      simp [oksBefore]

/-! ## Claim C1 (live-mode server port) -/

/-- C1: the claim says the static server is started on the configured port.
In the code, `Commands::Dev { port: _ }` discards the parsed `--port` value
and `serve_static_files` hard-codes the binding `([127, 0, 0, 1], 3000)`:
for the accepted CLI value `--port 8080`, `main` starts the server on port
3000, not 8080 (and does so for every `Dev` invocation). -/
theorem dev_server_ignores_configured_port :
    (∀ (cli : Cli) (p : Nat), cli.command = .dev p →
      (mainServer cli).map ServerConfig.port = some 3000) ∧
    (mainServer { command := .dev 8080, content_dir := "content",
                  template_dir := "templates", output_dir := "public" }).map
        ServerConfig.port = some 3000 ∧ (3000 : Nat) ≠ 8080 := by
  refine ⟨fun cli p h => ?_, rfl, by decide⟩
  simp [mainServer, h, serve_static_files]

/-- Witness for the quantified part of `dev_server_ignores_configured_port`
at a concrete `Cli` value. -/
theorem dev_server_ignores_configured_port_witness :
    ({ command := .dev 8080, content_dir := "content", template_dir := "templates",
       output_dir := "public" } : Cli).command = .dev 8080 ∧
    (mainServer { command := .dev 8080, content_dir := "content",
                  template_dir := "templates", output_dir := "public" }).map
        ServerConfig.port = some 3000 :=
  ⟨rfl, dev_server_ignores_configured_port.1 _ 8080 rfl⟩

/-! ## Claim C2 (debounce) -/

/-- C2 counterexample: a burst of 5 filesystem events delivered within the
debounce window (five consecutive `Ok` results of `recv_timeout`) triggers
five `generate_site` invocations, not one: the claimed coalescing does not
exist in the loop. -/
theorem burst_of_five_events_five_regens :
    (runWatch [.ok true, .ok true, .ok true, .ok true, .ok true]).regens = 5 ∧
    ¬ (runWatch [.ok true, .ok true, .ok true, .ok true, .ok true]).regens = 1 := by
  decide

/-- C2 amended: the loop at lines 207-223 performs exactly one
`generate_site` invocation per event received from the channel (up to the
first disconnection); the 100 ms `recv_timeout` only bounds each blocking
wait (its `Timeout` arm does nothing) and performs no coalescing, so a burst
of n delivered events triggers n regenerations. -/
theorem watch_loop_regenerates_once_per_event (events : List RecvEvent) :
    (runWatch events).regens = oksBefore events := by
  unfold runWatch
  rw [foldl_watchStep_regens events watchInit rfl]
  simp [watchInit]

/-! ## Claim C3 (error handling in live mode) -/

/-- C3 counterexample: after the watch channel disconnects, the loop has
reported the error and stopped (`break`), but the static server — and with
it the process, whose main task is awaiting `warp::serve(...).run(...)` —
is still running: the watch-channel error is not fatal to the process. -/
theorem disconnect_leaves_process_running :
    (runDev [.disconnected]).watch.alive = false ∧
    (runDev [.disconnected]).watch.watchErrorReported = true ∧
    (runDev [.disconnected]).serverRunning = true := by
  decide

/-- C3 amended: a failed regeneration (`Ok` event whose `generate_site`
returns an error) is reported and leaves the loop running; a watch-channel
disconnection is reported and terminates the watch loop (no further event
is processed), but only that spawned task: the static server keeps the
process alive for every trace. -/
theorem regen_failure_nonfatal_disconnect_stops_watcher (s : WatchState)
    (h : s.alive = true) :
    ((watchStep s (.ok false)).alive = true ∧
      (watchStep s (.ok false)).regens = s.regens + 1 ∧
      (watchStep s (.ok false)).regenFailuresReported =
        s.regenFailuresReported + 1) ∧
    ((watchStep s .disconnected).alive = false ∧
      (watchStep s .disconnected).watchErrorReported = true ∧
      ∀ e, watchStep (watchStep s .disconnected) e = watchStep s .disconnected) ∧
    (∀ events, (runDev events).serverRunning = true) := by
  refine ⟨by simp [watchStep, h], ⟨by simp [watchStep, h], by simp [watchStep, h], ?_⟩, ?_⟩
  · intro e
    exact watchStep_dead (by simp [watchStep, h]) e
  · intro events
    rfl

/-- Witness for `regen_failure_nonfatal_disconnect_stops_watcher` at the
initial watch-loop state. -/
theorem regen_failure_nonfatal_disconnect_stops_watcher_witness :
    watchInit.alive = true ∧
    (watchStep watchInit (.ok false)).alive = true ∧
    (watchStep watchInit .disconnected).alive = false ∧
    (runDev [.ok false, .disconnected]).serverRunning = true :=
  ⟨rfl,
   (regen_failure_nonfatal_disconnect_stops_watcher watchInit rfl).1.1,
   (regen_failure_nonfatal_disconnect_stops_watcher watchInit rfl).2.1.1,
   (regen_failure_nonfatal_disconnect_stops_watcher watchInit rfl).2.2 _⟩

/-! ## Claim C7 (feed is an order-preserving projection of the collection) -/

/-- C7: `generate_rss` builds exactly one item per post, in collection
order: the item count equals the collection length, and the item at index
`i` carries the title, the link `https://trkw.github.io/{slug}.html`, the
description, and the RFC 2822 rendering of the date of the post at index
`i`. -/
theorem feed_projects_collection (posts : List Post) :
    (generate_rss posts).items.length = posts.length ∧
    ∀ (i : Nat) (p : Post), posts[i]? = some p →
      (generate_rss posts).items[i]? = some
        { title := some p.front_matter.title
          link := some ("https://trkw.github.io/" ++ p.slug ++ ".html")
          description := some p.front_matter.description
          pub_date := some (toRfc2822 p.front_matter.date) } := by
  constructor
  · simp [generate_rss]
  · intro i p h
    simp [generate_rss, List.getElem?_map, h, rssItemOfPost]

/-- Witness for `feed_projects_collection` on a one-post collection. -/
theorem feed_projects_collection_witness :
    ([{ front_matter := { title := "T", date := 0, description := "D" },
        content := "", slug := "s", formatted_date := "1970-01-01" }] :
      List Post)[0]? = some
        { front_matter := { title := "T", date := 0, description := "D" },
          content := "", slug := "s", formatted_date := "1970-01-01" } ∧
    (generate_rss [{ front_matter := { title := "T", date := 0, description := "D" },
                     content := "", slug := "s", formatted_date := "1970-01-01" }]).items[0]? =
      some { title := some "T", link := some "https://trkw.github.io/s.html",
             description := some "D",
             pub_date := some (toRfc2822 (0 : Int)) } :=
  ⟨rfl, (feed_projects_collection _).2 0 _ rfl⟩

/-! ## Sorting lemmas (line 147) -/

theorem insertPost_perm (p : Post) (l : List Post) :
    (insertPost p l).Perm (p :: l) := by
  induction l with
  | nil => rfl
  | cons q rest ih =>
    by_cases h : postLe p q
    · simp [insertPost, h]
    · simp only [insertPost, if_neg h]
      exact ((ih.cons q).trans (List.Perm.swap p q rest)).symm.symm

theorem sortPosts_perm (l : List Post) : (sortPosts l).Perm l := by
  induction l with
  | nil => rfl
  | cons p t ih =>
    have : sortPosts (p :: t) = insertPost p (sortPosts t) := rfl
    rw [this]
    exact (insertPost_perm p (sortPosts t)).trans (ih.cons p)

theorem pairwise_insertPost (p : Post) (l : List Post)
    (h : l.Pairwise (fun a b => b.front_matter.date ≤ a.front_matter.date)) :
    (insertPost p l).Pairwise (fun a b => b.front_matter.date ≤ a.front_matter.date) := by
  induction l with
  | nil => simp [insertPost]
  | cons q rest ih =>
    rcases List.pairwise_cons.mp h with ⟨hq, hrest⟩
    by_cases hpq : postLe p q
    · have hle : q.front_matter.date ≤ p.front_matter.date := by
        simpa [postLe] using hpq
      simp only [insertPost, if_pos hpq]
      refine List.pairwise_cons.mpr ⟨?_, h⟩
      intro x hx
      rcases List.mem_cons.mp hx with hx | hx
      · subst hx
        omega
      · have := hq x hx
        omega
    · have hlt : p.front_matter.date < q.front_matter.date := by
        simp only [postLe, decide_eq_true_eq] at hpq
        omega
      simp only [insertPost, if_neg hpq]
      refine List.pairwise_cons.mpr ⟨?_, ih hrest⟩
      intro x hx
      have hx2 := (insertPost_perm p rest).mem_iff.mp hx
      rcases List.mem_cons.mp hx2 with hx2 | hx2
      · subst hx2
        omega
      · exact hq x hx2

theorem sortPosts_sorted (l : List Post) :
    (sortPosts l).Pairwise (fun a b => b.front_matter.date ≤ a.front_matter.date) := by
  induction l with
  | nil => simp [sortPosts]
  | cons p t ih => exact pairwise_insertPost p (sortPosts t) ih

theorem filter_insertPost (d : Int) (p : Post) (l : List Post) :
    (insertPost p l).filter (fun q => q.front_matter.date == d) =
      if p.front_matter.date == d
      then p :: l.filter (fun q => q.front_matter.date == d)
      else l.filter (fun q => q.front_matter.date == d) := by
  induction l with
  | nil =>
    by_cases hfp : p.front_matter.date == d <;> simp [insertPost, List.filter, hfp]
  | cons q rest ih =>
    by_cases hpq : postLe p q
    · by_cases hfp : p.front_matter.date == d <;>
        simp [insertPost, if_pos hpq, List.filter, hfp]
    · have hlt : p.front_matter.date < q.front_matter.date := by
        simp only [postLe, decide_eq_true_eq] at hpq
        omega
      by_cases hfp : p.front_matter.date == d
      · have hfq : (q.front_matter.date == d) = false := by
          have hne : q.front_matter.date ≠ d := by
            simp only [beq_iff_eq] at hfp
            omega
          simpa using hne
        simp [insertPost, if_neg hpq, List.filter, hfq, ih, hfp]
      · by_cases hfq : q.front_matter.date == d <;>
          simp [insertPost, if_neg hpq, List.filter, hfq, ih, hfp]

theorem sortPosts_filter (d : Int) (l : List Post) :
    (sortPosts l).filter (fun q => q.front_matter.date == d) =
      l.filter (fun q => q.front_matter.date == d) := by
  induction l with
  | nil => rfl
  | cons p t ih =>
    have : sortPosts (p :: t) = insertPost p (sortPosts t) := rfl
    rw [this, filter_insertPost d p (sortPosts t), ih]
    by_cases hfp : p.front_matter.date == d <;> simp [List.filter, hfp]

/-! ## Claim C6 (collection ordering) -/

/-- C6: the collection assembled at line 147 is sorted by date descending
(weakly in general, strictly when all dates are distinct), it is a
permutation of the parsed documents, and documents with equal dates keep
their relative input order (the per-date sublists are untouched: the sort
is stable). -/
theorem collection_sorted_desc_stable (l : List Post) :
    (sortPosts l).Pairwise
      (fun a b => b.front_matter.date ≤ a.front_matter.date) ∧
    (sortPosts l).Perm l ∧
    ((l.map (fun p => p.front_matter.date)).Nodup →
      (sortPosts l).Pairwise
        (fun a b => b.front_matter.date < a.front_matter.date)) ∧
    (∀ d : Int, (sortPosts l).filter (fun q => q.front_matter.date == d) =
      l.filter (fun q => q.front_matter.date == d)) := by
  refine ⟨sortPosts_sorted l, sortPosts_perm l, ?_, fun d => sortPosts_filter d l⟩
  intro hnd
  have hnd2 : ((sortPosts l).map (fun p => p.front_matter.date)).Nodup :=
    (((sortPosts_perm l).map (fun p => p.front_matter.date)).nodup_iff).mpr hnd
  have hne : (sortPosts l).Pairwise
      (fun a b => a.front_matter.date ≠ b.front_matter.date) :=
    List.pairwise_map.mp hnd2
  exact ((sortPosts_sorted l).and hne).imp (fun h => by omega)

/-! ## Split lemmas (line 70) -/

theorem consSeg_ne_nil (c : Char) (L : List (List Char)) : consSeg c L ≠ [] := by
  cases L <;> simp [consSeg]

theorem consSeg_length (c : Char) (L : List (List Char)) (h : L ≠ []) :
    (consSeg c L).length = L.length := by
  cases L with
  | nil => exact absurd rfl h
  | cons seg rest => simp [consSeg]

theorem splitD_ne_nil (s : List Char) : splitD s ≠ [] := by
  induction s using splitD.induct with
  | case1 u ih => rw [splitD.eq_1]; simp
  | case2 c t h ih => rw [splitD.eq_2 c t h]; exact consSeg_ne_nil c (splitD t)
  | case3 => rw [splitD.eq_3]; simp

theorem isDelimAt_iff (s : List Char) :
    isDelimAt s = true ↔ ∃ u, s = '-' :: '-' :: '-' :: '\n' :: u := by
  rcases s with _ | ⟨c1, _ | ⟨c2, _ | ⟨c3, _ | ⟨c4, u⟩⟩⟩⟩ <;>
    simp [isDelimAt, and_assoc]

theorem occD_delim (u : List Char) :
    occD ('-' :: '-' :: '-' :: '\n' :: u) = 1 + occD u := by
  simp [occD, isDelimAt]

theorem occD_cons_not (c : Char) (t : List Char) (h : isDelimAt (c :: t) = false) :
    occD (c :: t) = occD t := by
  simp [occD, h]

theorem splitD_length_occD (s : List Char) :
    ((splitD s).length ≥ 2 ↔ occD s ≥ 1) ∧
    ((splitD s).length ≥ 3 ↔ occD s ≥ 2) := by
  induction s using splitD.induct with
  | case1 u ih =>
    have h1 := splitD.eq_1 u
    have hocc := occD_delim u
    have hpos : 1 ≤ (splitD u).length := List.length_pos.mpr (splitD_ne_nil u)
    rcases ih with ⟨ih1, ih2⟩
    rw [h1]
    simp only [List.length_cons, hocc]
    omega
  | case2 c t h ih =>
    have hfalse : isDelimAt (c :: t) = false := by
      rw [Bool.eq_false_iff]
      intro habs
      obtain ⟨u, hu⟩ := (isDelimAt_iff (c :: t)).mp habs
      rw [List.cons.injEq] at hu
      exact h u hu.1 hu.2
    have h2 : (splitD (c :: t)).length = (splitD t).length := by
      rw [splitD.eq_2 c t h, consSeg_length c (splitD t) (splitD_ne_nil t)]
    rw [h2, occD_cons_not c t hfalse]
    exact ih
  | case3 =>
    rw [splitD.eq_3]
    simp [occD]

/-! ## Claim C8 (format error iff fewer than three segments) -/

/-- C8: `parse_markdown_file` fails with the three-part format error
(`bail!` at line 73) exactly when splitting the file on `"---\n"` yields
fewer than 3 segments, which happens exactly when the delimiter occurs
(at any position) fewer than two times in the text. -/
theorem format_error_iff_segments (env : ParseEnv) (stem content : String) :
    (parse_markdown_file env stem content = .error .formatError ↔
      (splitD content.data).length < 3) ∧
    ((splitD content.data).length < 3 ↔ occD content.data < 2) := by
  constructor
  · unfold parse_markdown_file
    by_cases h : (splitD content.data).length < 3
    · simp [h]
    · simp only [if_neg h]
      cases henv : env.fromYaml (String.mk ((splitD content.data).getD 1 [])) with
      | error e => simp [h]
      | ok fm => simp [h]
  · have h := splitD_length_occD content.data
    rcases h with ⟨h1, h2⟩
    omega

/-- Witness for `collection_sorted_desc_stable` on two posts with distinct
dates: the hypothesis of the strict-descending part holds and the sorted
collection is strictly descending. -/
theorem collection_sorted_desc_stable_witness :
    (([{ front_matter := { title := "A", date := 100, description := "" },
         content := "", slug := "a", formatted_date := "" },
       { front_matter := { title := "B", date := 200, description := "" },
         content := "", slug := "b", formatted_date := "" }] : List Post).map
      (fun p => p.front_matter.date)).Nodup ∧
    (sortPosts [{ front_matter := { title := "A", date := 100, description := "" },
                  content := "", slug := "a", formatted_date := "" },
                { front_matter := { title := "B", date := 200, description := "" },
                  content := "", slug := "b", formatted_date := "" }]).Pairwise
      (fun a b => b.front_matter.date < a.front_matter.date) :=
  ⟨by decide, (collection_sorted_desc_stable _).2.2.1 (by decide)⟩

/-! ## Claim C10 (exact-substring split semantics) -/

/-- C10: the three-part split of `parse_markdown_file` is on the exact
four-character substring `"---\n"` wherever it occurs, not on whole
delimiter lines: (a) the body of every successful parse is the converted
third segment of the split, so text after a further `"---\n"` occurrence is
silently discarded; (b) a file whose delimiters sit mid-line
(`"ab---\ntitle---\ncd"`) parses, with body `"cd"`, under any metadata
deserializer accepting its middle segment; (c) a file whose closing `"---"`
lacks the trailing newline (`"---\ntitle: x\n---"`) has only one delimiter
occurrence and fails with the format error; (d) a file with a third
delimiter (`"---\nt\n---\nbody---\nextra\n"`) parses with body exactly
`"body"`, discarding `"extra\n"`. -/
theorem split_exact_substring_semantics :
    (∀ (env : ParseEnv) (stem content : String) (post : Post),
      parse_markdown_file env stem content = .ok post →
        post.content = env.mdToHtml (String.mk ((splitD content.data).getD 2 []))) ∧
    (∀ (env : ParseEnv) (fm : FrontMatter), env.fromYaml "title" = .ok fm →
      parse_markdown_file env "n" "ab---\ntitle---\ncd" = .ok
        { front_matter := fm, content := env.mdToHtml "cd", slug := "n",
          formatted_date := format_date fm.date }) ∧
    (∀ (env : ParseEnv) (stem : String),
      parse_markdown_file env stem "---\ntitle: x\n---" = .error .formatError ∧
      occD ("---\ntitle: x\n---" : String).data = 1) ∧
    (∀ (env : ParseEnv) (fm : FrontMatter), env.fromYaml "t\n" = .ok fm →
      parse_markdown_file env "n" "---\nt\n---\nbody---\nextra\n" = .ok
        { front_matter := fm, content := env.mdToHtml "body", slug := "n",
          formatted_date := format_date fm.date }) := by
  refine ⟨?_, ?_, ?_, ?_⟩
  · intro env stem content post h
    unfold parse_markdown_file at h
    by_cases hlen : (splitD content.data).length < 3
    · rw [if_pos hlen] at h
      exact absurd h (by simp)
    · rw [if_neg hlen] at h
      cases hy : env.fromYaml (String.mk ((splitD content.data).getD 1 [])) with
      | error e => rw [hy] at h; exact absurd h (by simp)
      | ok fm =>
        rw [hy] at h
        have := Except.ok.inj h
        rw [← this]
  · intro env fm h
    have hs : splitD ("ab---\ntitle---\ncd" : String).data =
        ["ab".data, "title".data, "cd".data] := by decide
    unfold parse_markdown_file
    rw [hs]
    have h1 : String.mk ((["ab".data, "title".data, "cd".data]).getD 1 []) = "title" := rfl
    have h2 : String.mk ((["ab".data, "title".data, "cd".data]).getD 2 []) = "cd" := rfl
    rw [if_neg (by decide), h1, h2, h]
  · intro env stem
    refine ⟨?_, by decide⟩
    unfold parse_markdown_file
    rw [if_pos (by decide)]
  · intro env fm h
    have hs : splitD ("---\nt\n---\nbody---\nextra\n" : String).data =
        ["".data, "t\n".data, "body".data, "extra\n".data] := by decide
    unfold parse_markdown_file
    rw [hs]
    have h1 : String.mk ((["".data, "t\n".data, "body".data, "extra\n".data]).getD 1 []) =
        "t\n" := rfl
    have h2 : String.mk ((["".data, "t\n".data, "body".data, "extra\n".data]).getD 2 []) =
        "body" := rfl
    rw [if_neg (by decide), h1, h2, h]

/-- Witness for `split_exact_substring_semantics` in the concrete witness
environment. -/
theorem split_exact_substring_semantics_witness :
    envParseW.fromYaml "title" =
      .ok { title := "title", date := 0, description := "" } ∧
    parse_markdown_file envParseW "n" "ab---\ntitle---\ncd" = .ok
      { front_matter := { title := "title", date := 0, description := "" },
        content := "cd", slug := "n", formatted_date := format_date 0 } ∧
    parse_markdown_file envParseW "n" "---\nt\n---\nbody---\nextra\n" = .ok
      { front_matter := { title := "t\n", date := 0, description := "" },
        content := "body", slug := "n", formatted_date := format_date 0 } :=
  ⟨rfl, split_exact_substring_semantics.2.1 envParseW _ rfl,
   split_exact_substring_semantics.2.2.2 envParseW _ rfl⟩

/-! ## Site-generation lemmas -/

theorem generate_site_ok {env : SiteEnv} {fs fsOut : FS}
    (h : generate_site env fs = .ok fsOut) :
    ∃ render posts fsF out,
      env.tera = .ok render ∧
      (env.contentFiles.filter (fun f => f.ext = "md")).mapM
        (fun f => parse_markdown_file env.parse f.stem f.text) = .ok posts ∧
      (sortPosts posts).foldlM (writePostPage render) fs = .ok fsF ∧
      render "index.html" (.index (sortPosts posts)) = .ok out ∧
      fsOut = fsWrite (fsWrite fsF "index.html" out) "feed.xml"
        (env.feedToString (generate_rss (sortPosts posts))) := by
  unfold generate_site at h
  cases ht : env.tera with
  | error e => rw [ht] at h; exact absurd h (by simp)
  | ok render =>
    rw [ht] at h
    cases hm : (env.contentFiles.filter (fun f => f.ext = "md")).mapM
        (fun f => parse_markdown_file env.parse f.stem f.text) with
    | error e => rw [hm] at h; exact absurd h (by simp)
    | ok posts =>
      rw [hm] at h
      simp only at h
      cases hf : (sortPosts posts).foldlM (writePostPage render) fs with
      | error e => rw [hf] at h; exact absurd h (by simp)
      | ok fsF =>
        rw [hf] at h
        cases hidx : render "index.html" (.index (sortPosts posts)) with
        | error e => rw [hidx] at h; exact absurd h (by simp)
        | ok out =>
          rw [hidx] at h
          exact ⟨render, posts, fsF, out, rfl, rfl, hf, hidx, (Except.ok.inj h).symm⟩

theorem except_bind_error {e : SiteError} {f : FS → Except SiteError FS} :
    ((Except.error e : Except SiteError FS) >>= f) = Except.error e := rfl

theorem except_bind_ok {a : FS} {f : FS → Except SiteError FS} :
    ((Except.ok a : Except SiteError FS) >>= f) = f a := rfl

theorem foldl_writePost_pointwise
    (render : String → TemplateVars → Except String String) :
    ∀ (posts : List Post) (fsA fsB fsA2 fsB2 : FS),
      posts.foldlM (writePostPage render) fsA = .ok fsA2 →
      posts.foldlM (writePostPage render) fsB = .ok fsB2 →
      ∀ q, fsA2 q = fsB2 q ∨ (fsA2 q = fsA q ∧ fsB2 q = fsB q) := by
  intro posts
  induction posts with
  | nil =>
    intro fsA fsB fsA2 fsB2 hA hB q
    simp only [List.foldlM_nil] at hA hB
    right
    exact ⟨congrFun (Except.ok.inj hA).symm q, congrFun (Except.ok.inj hB).symm q⟩
  | cons post rest ih =>
    intro fsA fsB fsA2 fsB2 hA hB q
    simp only [List.foldlM_cons] at hA hB
    cases hr : render "post.html"
        (.post post.front_matter.title post.content post.formatted_date) with
    | error e =>
      rw [show writePostPage render fsA post = .error (.render e) by
            simp [writePostPage, hr], except_bind_error] at hA
      exact absurd hA (by simp)
    | ok out =>
      rw [show writePostPage render fsA post =
            .ok (fsWrite fsA (post.slug ++ ".html") out) by
            simp [writePostPage, hr], except_bind_ok] at hA
      rw [show writePostPage render fsB post =
            .ok (fsWrite fsB (post.slug ++ ".html") out) by
            simp [writePostPage, hr], except_bind_ok] at hB
      have step := ih (fsWrite fsA (post.slug ++ ".html") out)
        (fsWrite fsB (post.slug ++ ".html") out) fsA2 fsB2 hA hB q
      rcases step with hsame | ⟨ha, hb⟩
      · exact Or.inl hsame
      · by_cases hq : q = post.slug ++ ".html"
        · left
          rw [ha, hb]
          simp [fsWrite, hq]
        · right
          rw [ha, hb]
          simp [fsWrite, hq]

/-! ## Claim C5 (idempotence / determinism of generation) -/

/-- C5: `generate_site` is a pure function of its inputs (content files,
templates, and the library boundaries): two consecutive successful runs on
unchanged inputs produce identical output trees — every artifact written by
the second run (each `{slug}.html`, `index.html`, `feed.xml`) is
byte-identical to the first run's, and no other path differs. -/
theorem generate_site_idempotent (env : SiteEnv) (fs fs1 fs2 : FS)
    (h1 : generate_site env fs = .ok fs1)
    (h2 : generate_site env fs1 = .ok fs2) : fs2 = fs1 := by
  obtain ⟨r1, posts1, fsF1, out1, ht1, hm1, hf1, hx1, he1⟩ := generate_site_ok h1
  obtain ⟨r2, posts2, fsF2, out2, ht2, hm2, hf2, hx2, he2⟩ := generate_site_ok h2
  have hr : r2 = r1 := Except.ok.inj (ht2.symm.trans ht1)
  subst hr
  have hp : posts2 = posts1 := Except.ok.inj (hm2.symm.trans hm1)
  subst hp
  have hout : out2 = out1 := Except.ok.inj (hx2.symm.trans hx1)
  subst hout
  funext q
  rw [he1, he2]
  by_cases hfeed : q = "feed.xml"
  · simp [fsWrite, hfeed]
  · by_cases hidx : q = "index.html"
    · simp [fsWrite, hfeed, hidx]
    · simp only [fsWrite, if_neg hfeed, if_neg hidx]
      have step := foldl_writePost_pointwise r2 (sortPosts posts2) fs fs1 fsF1 fsF2
        hf1 hf2 q
      rcases step with hsame | ⟨ha, hb⟩
      · exact hsame.symm
      · rw [hb, he1]
        simp only [fsWrite, if_neg hfeed, if_neg hidx]

/-- Witness for `generate_site_idempotent`: in the concrete witness
environment both runs succeed and produce the same output tree. -/
theorem generate_site_idempotent_witness :
    generate_site siteEnvW fsEmpty = .ok fsW1 ∧
    generate_site siteEnvW fsW1 = .ok fsW2 ∧ fsW2 = fsW1 :=
  ⟨rfl, rfl, generate_site_idempotent siteEnvW fsEmpty fsW1 fsW2 rfl rfl⟩

/-! ## Calendar bounds -/

theorem eraStart_zero : eraStart 0 = 0 := by decide

theorem eraStart_findYoe_le (doe : Nat) : ∀ k, eraStart (findYoe doe k) ≤ doe := by
  intro k
  induction k with
  | zero => simp [findYoe, eraStart_zero]
  | succ y ih =>
    unfold findYoe
    by_cases h : eraStart (y + 1) ≤ doe
    · rw [if_pos h]; exact h
    · rw [if_neg h]; exact ih

theorem findYoe_succ_bound (doe : Nat) :
    ∀ k, findYoe doe k = k ∨ doe < eraStart (findYoe doe k + 1) := by
  intro k
  induction k with
  | zero => exact Or.inl rfl
  | succ y ih =>
    unfold findYoe
    by_cases h : eraStart (y + 1) ≤ doe
    · rw [if_pos h]; exact Or.inl rfl
    · rw [if_neg h]
      rcases ih with heq | hlt
      · rw [heq]; exact Or.inr (by omega)
      · exact Or.inr hlt

theorem eraStart_succ_le (y : Nat) : eraStart (y + 1) ≤ eraStart y + 366 := by
  unfold eraStart
  omega

theorem eraStart_399 : eraStart 399 = 145731 := by decide

theorem cfdDoy_le (doe : Nat) (h : doe ≤ 146096) :
    cfdDoy doe ≤ 365 ∧ eraStart (cfdYoe doe) ≤ doe := by
  have h1 := eraStart_findYoe_le doe 399
  have h1' : eraStart (cfdYoe doe) ≤ doe := h1
  refine ⟨?_, h1'⟩
  rcases findYoe_succ_bound doe 399 with heq | hlt
  · unfold cfdDoy cfdYoe
    rw [heq, eraStart_399]
    omega
  · have h2 := eraStart_succ_le (findYoe doe 399)
    unfold cfdDoy cfdYoe
    omega

theorem cfd_month_day_bounds (doe : Nat) (h : doe ≤ 146096) :
    1 ≤ cfdMonth doe ∧ cfdMonth doe ≤ 12 ∧ 1 ≤ cfdDay doe ∧ cfdDay doe ≤ 31 := by
  have hdoy := (cfdDoy_le doe h).1
  unfold cfdMonth cfdDay cfdMp
  by_cases hc : (5 * cfdDoy doe + 2) / 153 < 10 <;>
    [rw [if_pos hc]; rw [if_neg hc]] <;> omega

theorem cfdDoe_le (z : Int) : cfdDoe z ≤ 146096 := by
  show ((z + 719468) % 146097).toNat ≤ 146096
  have h1 := Int.emod_nonneg (z + 719468) (by norm_num : (146097 : Int) ≠ 0)
  have h2 := Int.emod_lt_of_pos (z + 719468) (by norm_num : (0 : Int) < 146097)
  omega

theorem month_day_bounds (t : Int) :
    1 ≤ monthOf t ∧ monthOf t ≤ 12 ∧ 1 ≤ dayOf t ∧ dayOf t ≤ 31 := by
  have h := cfd_month_day_bounds (cfdDoe (Int.ediv t 86400)) (cfdDoe_le _)
  exact ⟨h.1, h.2.1, h.2.2.1, h.2.2.2⟩

/-! ## Decimal string lemmas -/

theorem digitChar_isDigit : ∀ d, d < 10 → (digitChar d).isDigit = true := by decide

theorem digitChar_toNat : ∀ d, d < 10 → (digitChar d).toNat = 48 + d := by decide

theorem decDigitsRev_len : ∀ (fuel n k : Nat), n < 10 ^ k →
    (decDigitsRev fuel n).length ≤ k := by
  intro fuel
  induction fuel with
  | zero => intro n k h; simp [decDigitsRev]
  | succ f ih =>
    intro n k h
    by_cases hn : n = 0
    · simp [decDigitsRev, hn]
    · cases k with
      | zero => rw [pow_zero] at h; omega
      | succ j =>
        have hdiv : n / 10 < 10 ^ j := by
          rw [Nat.div_lt_iff_lt_mul (by norm_num)]
          calc n < 10 ^ (j + 1) := h
            _ = 10 ^ j * 10 := by ring
        simp only [decDigitsRev, if_neg hn, List.length_cons]
        have := ih (n / 10) j hdiv
        omega

theorem decDigitsRev_digits : ∀ (f n : Nat), ∀ c ∈ decDigitsRev f n,
    c.isDigit = true := by
  intro f
  induction f with
  | zero => intro n c hc; simp [decDigitsRev] at hc
  | succ f ih =>
    intro n c hc
    by_cases hn : n = 0
    · simp [decDigitsRev, hn] at hc
    · simp only [decDigitsRev, if_neg hn] at hc
      rcases List.mem_cons.mp hc with hc | hc
      · rw [hc]
        exact digitChar_isDigit (n % 10) (Nat.mod_lt _ (by norm_num))
      · exact ih (n / 10) c hc

theorem natToDecList_len_le (n k : Nat) (hk : 1 ≤ k) (h : n < 10 ^ k) :
    (natToDecList n).length ≤ k := by
  unfold natToDecList
  by_cases hn : n = 0
  · rw [if_pos hn]
    simpa using hk
  · rw [if_neg hn, List.length_reverse]
    exact decDigitsRev_len n n k h

theorem natToDecList_digits (n : Nat) : ∀ c ∈ natToDecList n, c.isDigit = true := by
  intro c hc
  unfold natToDecList at hc
  by_cases hn : n = 0
  · rw [if_pos hn] at hc
    simp at hc
    rw [hc]
    decide
  · rw [if_neg hn, List.mem_reverse] at hc
    exact decDigitsRev_digits n n c hc

theorem fmtPad_length (w n : Nat) (hw : 1 ≤ w) (h : n < 10 ^ w) :
    (fmtPad w n).length = w := by
  unfold fmtPad
  rw [List.length_append, List.length_replicate]
  have h1 := natToDecList_len_le n w hw h
  omega

theorem fmtPad_digits (w n : Nat) : ∀ c ∈ fmtPad w n, c.isDigit = true := by
  intro c hc
  unfold fmtPad at hc
  rcases List.mem_append.mp hc with hc | hc
  · rw [List.eq_of_mem_replicate hc]
    decide
  · exact natToDecList_digits n c hc

theorem decode_foldl_digits : ∀ (f n a : Nat), n ≤ f →
    List.foldl (fun acc c => acc * 10 + (c.toNat - 48)) a (decDigitsRev f n).reverse =
      a * 10 ^ (decDigitsRev f n).length + n := by
  intro f
  induction f with
  | zero =>
    intro n a h
    have hn : n = 0 := by omega
    simp [decDigitsRev, hn]
  | succ f ih =>
    intro n a h
    by_cases hn : n = 0
    · simp [decDigitsRev, hn]
    · simp only [decDigitsRev, if_neg hn, List.reverse_cons, List.foldl_append,
        List.length_cons]
      have hrec : n / 10 ≤ f := by
        have := Nat.div_lt_self (by omega : 0 < n) (by norm_num : 1 < 10)
        omega
      rw [ih (n / 10) a hrec]
      simp only [List.foldl_cons, List.foldl_nil]
      rw [digitChar_toNat (n % 10) (Nat.mod_lt _ (by norm_num))]
      rw [pow_succ, ← mul_assoc]
      have hdm := Nat.div_add_mod n 10
      generalize a * 10 ^ (decDigitsRev f (n / 10)).length = B
      omega

theorem decode_leading_zeros (k : Nat) (l : List Char) :
    decodeNat (List.replicate k '0' ++ l) = decodeNat l := by
  unfold decodeNat
  rw [List.foldl_append]
  have : ∀ m, List.foldl (fun acc c => acc * 10 + (c.toNat - 48)) 0
      (List.replicate m '0') = 0 := by
    intro m
    induction m with
    | zero => rfl
    | succ m ih => simpa [List.replicate_succ] using ih
  rw [this k]

theorem decodeNat_natToDecList (n : Nat) : decodeNat (natToDecList n) = n := by
  unfold natToDecList
  by_cases hn : n = 0
  · rw [if_pos hn, hn]
    decide
  · rw [if_neg hn]
    have := decode_foldl_digits n n 0 le_rfl
    unfold decodeNat
    rw [this]
    simp

theorem decodeNat_fmtPad (w n : Nat) : decodeNat (fmtPad w n) = n := by
  unfold fmtPad
  rw [decode_leading_zeros]
  exact decodeNat_natToDecList n

/-! ## Structure of the formatted date string -/

theorem string_dash_data : ("-" : String).data = ['-'] := rfl

theorem format_date_data (t : Int) :
    (format_date t).data =
      fmtPadInt 4 (yearOf t) ++
        '-' :: (fmtPad 2 (monthOf t) ++ '-' :: fmtPad 2 (dayOf t)) := by
  show (⟨fmtPadInt 4 (yearOf t)⟩ ++ "-" ++ ⟨fmtPad 2 (monthOf t)⟩ ++ "-" ++
      ⟨fmtPad 2 (dayOf t)⟩ : String).data = _
  simp [String.data_append, string_dash_data]

theorem list_len_four {α : Type} {l : List α} (h : l.length = 4) :
    ∃ a b c d, l = [a, b, c, d] := by
  match l, h with
  | [a, b, c, d], _ => exact ⟨a, b, c, d, rfl⟩

theorem list_len_two {α : Type} {l : List α} (h : l.length = 2) :
    ∃ a b, l = [a, b] := by
  match l, h with
  | [a, b], _ => exact ⟨a, b, rfl⟩

theorem ten_pow_four : (10 : Nat) ^ 4 = 10000 := by norm_num

theorem ten_pow_two : (10 : Nat) ^ 2 = 100 := by norm_num

/-! ## Claim C4 (shape of `formatted_date`), amended -/

/-- C4 amended: for every parsed document whose UTC calendar year lies in
`0..=9999` (every four-digit year; see the counterexample for the year-10000
overflow reachable through a timezone offset), `formatted_date` is exactly
10 characters, matches `\d{4}-\d{2}-\d{2}`, and its three fields decode back
to the year, month and day of the parsed UTC date. -/
theorem formatted_date_shape (t : Int) (h0 : 0 ≤ yearOf t) (h1 : yearOf t ≤ 9999) :
    (format_date t).length = 10 ∧
    datePattern (format_date t) = true ∧
    decodeNat ((format_date t).data.take 4) = (yearOf t).toNat ∧
    decodeNat (((format_date t).data.drop 5).take 2) = monthOf t ∧
    decodeNat ((format_date t).data.drop 8) = dayOf t := by
  obtain ⟨hm1, hm2, hd1, hd2⟩ := month_day_bounds t
  have hy : fmtPadInt 4 (yearOf t) = fmtPad 4 (yearOf t).toNat := by
    unfold fmtPadInt
    rw [if_neg (by omega)]
  have hylen : (fmtPad 4 (yearOf t).toNat).length = 4 :=
    fmtPad_length 4 _ (by norm_num) (by rw [ten_pow_four]; omega)
  have hmlen : (fmtPad 2 (monthOf t)).length = 2 :=
    fmtPad_length 2 _ (by norm_num) (by rw [ten_pow_two]; omega)
  have hdlen : (fmtPad 2 (dayOf t)).length = 2 :=
    fmtPad_length 2 _ (by norm_num) (by rw [ten_pow_two]; omega)
  have hdata := format_date_data t
  rw [hy] at hdata
  obtain ⟨a, b, c, d, habcd⟩ := list_len_four hylen
  obtain ⟨e, f, hef⟩ := list_len_two hmlen
  obtain ⟨g, h, hgh⟩ := list_len_two hdlen
  rw [habcd, hef, hgh] at hdata
  simp only [List.cons_append, List.nil_append] at hdata
  have ha : a.isDigit = true := fmtPad_digits 4 _ a (by rw [habcd]; simp)
  have hb : b.isDigit = true := fmtPad_digits 4 _ b (by rw [habcd]; simp)
  have hc : c.isDigit = true := fmtPad_digits 4 _ c (by rw [habcd]; simp)
  have hd : d.isDigit = true := fmtPad_digits 4 _ d (by rw [habcd]; simp)
  have he : e.isDigit = true := fmtPad_digits 2 _ e (by rw [hef]; simp)
  have hf : f.isDigit = true := fmtPad_digits 2 _ f (by rw [hef]; simp)
  have hg : g.isDigit = true := fmtPad_digits 2 _ g (by rw [hgh]; simp)
  have hh : h.isDigit = true := fmtPad_digits 2 _ h (by rw [hgh]; simp)
  refine ⟨?_, ?_, ?_, ?_, ?_⟩
  · show (format_date t).data.length = 10
    rw [hdata]
    simp
  · unfold datePattern
    rw [hdata]
    simp [ha, hb, hc, hd, he, hf, hg, hh]
  · rw [hdata]
    simp only [List.take_succ_cons, List.take_zero]
    rw [show [a, b, c, d] = fmtPad 4 (yearOf t).toNat from habcd.symm]
    exact decodeNat_fmtPad 4 _
  · rw [hdata]
    simp only [List.drop_succ_cons, List.drop_zero, List.take_succ_cons,
      List.take_zero]
    rw [show [e, f] = fmtPad 2 (monthOf t) from hef.symm]
    exact decodeNat_fmtPad 2 _
  · rw [hdata]
    simp only [List.drop_succ_cons, List.drop_zero]
    rw [show [g, h] = fmtPad 2 (dayOf t) from hgh.symm]
    exact decodeNat_fmtPad 2 _

/-- Witness for `formatted_date_shape` at the epoch instant (1970-01-01). -/
theorem formatted_date_shape_witness :
    (0 ≤ yearOf 0 ∧ yearOf 0 ≤ 9999) ∧
    ((format_date 0).length = 10 ∧
      datePattern (format_date 0) = true ∧
      decodeNat ((format_date 0).data.take 4) = (yearOf 0).toNat ∧
      decodeNat (((format_date 0).data.drop 5).take 2) = monthOf 0 ∧
      decodeNat ((format_date 0).data.drop 8) = dayOf 0) :=
  ⟨⟨by decide, by decide⟩, formatted_date_shape 0 (by decide) (by decide)⟩

/-- C4 counterexample: the source date `9999-12-31T23:00:00-02:00` parses
(RFC 3339, four-digit year), its UTC instant falls in calendar year 10000,
and the resulting `formatted_date` is the 11-character `"10000-01-01"`,
violating the claimed fixed 10-character `\d{4}-\d{2}-\d{2}` shape. -/
theorem formatted_date_oversize_year :
    format_date (rfc3339ToInstant 9999 12 31 23 0 0 (-120)) = "10000-01-01" ∧
    (format_date (rfc3339ToInstant 9999 12 31 23 0 0 (-120))).length = 11 ∧
    yearOf (rfc3339ToInstant 9999 12 31 23 0 0 (-120)) = 10000 ∧
    datePattern (format_date (rfc3339ToInstant 9999 12 31 23 0 0 (-120))) = false := by
  refine ⟨by decide, by decide, by decide, by decide⟩

/-! ## Claim C9 (dates are normalized to UTC) -/

set_option maxRecDepth 4000 in
/-- C9: the metadata `date` deserializes to a UTC instant
(`DateTime<Utc>`, modelled by `rfc3339ToInstant`), and both `formatted_date`
and the feed's publication date are computed from that UTC-converted
instant: the source date `2024-01-01T00:30:00+09:00` (UTC instant
`2023-12-31T15:30:00Z`) formats as `"2023-12-31"` — a different calendar day
than written in the source file — and its feed entry's publication date is
`"Sun, 31 Dec 2023 15:30:00 +0000"`. -/
theorem utc_normalization_example :
    format_date (rfc3339ToInstant 2024 1 1 0 30 0 540) = "2023-12-31" ∧
    format_date (rfc3339ToInstant 2024 1 1 0 30 0 540) ≠ "2024-01-01" ∧
    (generate_rss [⟨⟨"T", rfc3339ToInstant 2024 1 1 0 30 0 540, "D"⟩, "", "s",
        format_date (rfc3339ToInstant 2024 1 1 0 30 0 540)⟩]).items.map
      (fun item => item.pub_date) = [some "Sun, 31 Dec 2023 15:30:00 +0000"] := by
  refine ⟨by decide, by decide, by decide⟩
